import Mathlib

/-!
Verification of the request-execution pipeline of the `cloudflare-go-experimental`
client library (package `cloudflare`, files `client.go` / `zones.go`), as a shallow
embedding in Lean 4.

Modelling conventions:
* Go byte slices and response bodies are Lean `String`s; a `nil` byte slice is the
  empty string (both fail `json.Unmarshal` with "unexpected end of JSON input").
* Go `time.Duration` values are `Nat` nanoseconds.  `MaxRetries` is a `Nat`
  (a negative `MaxRetries` makes the Go loop body never run and the function
  dereference a nil response, which is outside every claim).
* Fallible Go operations return `Except`.
* The HTTP transport (`HTTPClient.Do`), the body reader (`ioutil.ReadAll`) and the
  caller's `context.Context` are modelled as an environment giving the outcome of
  each attempt, indexed by the loop counter `i`.
* `encoding/json` is modelled by an executable JSON parser over the grammar the
  claims exercise (objects, arrays, strings with simple escapes, integers,
  booleans, null).  Fractional/exponent numerics and `\u` escapes are rejected by
  the model; no claim feeds them.
-/

namespace Cloudflare

/-! ### JSON values and parser (model of `encoding/json` unmarshalling) -/

/-- A parsed JSON value. -/
inductive Jvalue where
  | null : Jvalue
  | bool (b : Bool) : Jvalue
  | num (n : Int) : Jvalue
  | str (s : String) : Jvalue
  | arr (elems : List Jvalue) : Jvalue
  | obj (fields : List (String × Jvalue)) : Jvalue

/-- The double-quote character. -/
def quoteChar : Char := Char.ofNat 34

/-- The backslash character. -/
def backslashChar : Char := Char.ofNat 92

/-- The opening-brace character. -/
def lbraceChar : Char := Char.ofNat 123

/-- The closing-brace character. -/
def rbraceChar : Char := Char.ofNat 125

/-- JSON insignificant whitespace. -/
def isJsonWs (c : Char) : Bool :=
  c = ' ' ∨ c = '\t' ∨ c = '\n' ∨ c = Char.ofNat 13

/-- Drop leading JSON whitespace. -/
def skipWs (cs : List Char) : List Char :=
  cs.dropWhile isJsonWs

/-- Parse the remainder of a JSON string literal (the opening quote already
consumed), handling the simple escapes. -/
def parseStringRest : List Char → Except String (String × List Char)
  | [] => .error "unexpected end of JSON input"
  | c :: rest =>
    if c = quoteChar then
      .ok ("", rest)
    else if c = backslashChar then
      match rest with
      | [] => .error "unexpected end of JSON input"
      | e :: rest2 =>
        let esc : Except String Char :=
          if e = quoteChar then .ok quoteChar
          else if e = backslashChar then .ok backslashChar
          else if e = '/' then .ok '/'
          else if e = 'n' then .ok '\n'
          else if e = 't' then .ok '\t'
          else if e = 'r' then .ok (Char.ofNat 13)
          else if e = 'b' then .ok (Char.ofNat 8)
          else if e = 'f' then .ok (Char.ofNat 12)
          else .error "unsupported escape in string literal"
        match esc with
        | .error m => .error m
        | .ok ch =>
          match parseStringRest rest2 with
          | .error m => .error m
          | .ok (s, r) => .ok (⟨ch :: s.data⟩, r)
    else
      match parseStringRest rest with
      | .error m => .error m
      | .ok (s, r) => .ok (⟨c :: s.data⟩, r)

/-- Parse a run of decimal digits. -/
def parseDigits (cs : List Char) : (List Char × List Char) :=
  (cs.takeWhile Char.isDigit, cs.dropWhile Char.isDigit)

/-- Digits to a natural number. -/
def digitsToNat (ds : List Char) : Nat :=
  ds.foldl (fun acc c => acc * 10 + (c.toNat - 48)) 0

mutual

/-- Parse one JSON value.  `fuel` bounds the recursion depth; the entry point
supplies more fuel than any input can consume. -/
def parseVal : Nat → List Char → Except String (Jvalue × List Char)
  | 0, _ => .error "value nesting exceeds model recursion bound"
  | fuel + 1, cs =>
    match skipWs cs with
    | [] => .error "unexpected end of JSON input"
    | c :: rest =>
      if c = 'n' then
        match rest with
        | 'u' :: 'l' :: 'l' :: r => .ok (.null, r)
        | _ => .error "invalid character in literal"
      else if c = 't' then
        match rest with
        | 'r' :: 'u' :: 'e' :: r => .ok (.bool true, r)
        | _ => .error "invalid character in literal"
      else if c = 'f' then
        match rest with
        | 'a' :: 'l' :: 's' :: 'e' :: r => .ok (.bool false, r)
        | _ => .error "invalid character in literal"
      else if c = quoteChar then
        match parseStringRest rest with
        | .error m => .error m
        | .ok (s, r) => .ok (.str s, r)
      else if c = '[' then
        match skipWs rest with
        | ']' :: r => .ok (.arr [], r)
        | other =>
          match parseArrItems fuel other with
          | .error m => .error m
          | .ok (vs, r) => .ok (.arr vs, r)
      else if c = lbraceChar then
        match skipWs rest with
        | r =>
          if r.head? = some rbraceChar then .ok (.obj [], r.tail)
          else
            match parseObjItems fuel r with
            | .error m => .error m
            | .ok (fs, r2) => .ok (.obj fs, r2)
      else if c = '-' then
        match parseDigits rest with
        | ([], _) => .error "invalid character in numeric literal"
        | (ds, r) =>
          if r.head? = some '.' ∨ r.head? = some 'e' ∨ r.head? = some 'E' then
            .error "non-integer numerics unsupported by model"
          else .ok (.num (-(digitsToNat ds : Int)), r)
      else if c.isDigit then
        match parseDigits (c :: rest) with
        | (ds, r) =>
          if r.head? = some '.' ∨ r.head? = some 'e' ∨ r.head? = some 'E' then
            .error "non-integer numerics unsupported by model"
          else .ok (.num (digitsToNat ds : Int), r)
      else
        .error "invalid character looking for beginning of value"

/-- Parse one or more comma-separated array items followed by `]`. -/
def parseArrItems : Nat → List Char → Except String (List Jvalue × List Char)
  | 0, _ => .error "value nesting exceeds model recursion bound"
  | fuel + 1, cs =>
    match parseVal fuel cs with
    | .error m => .error m
    | .ok (v, rest) =>
      match skipWs rest with
      | ',' :: r =>
        match parseArrItems fuel r with
        | .error m => .error m
        | .ok (vs, r2) => .ok (v :: vs, r2)
      | ']' :: r => .ok ([v], r)
      | _ => .error "invalid character after array element"

/-- Parse one or more comma-separated object members followed by the closing
brace. -/
def parseObjItems : Nat → List Char → Except String (List (String × Jvalue) × List Char)
  | 0, _ => .error "value nesting exceeds model recursion bound"
  | fuel + 1, cs =>
    match skipWs cs with
    | c :: rest =>
      if c = quoteChar then
        match parseStringRest rest with
        | .error m => .error m
        | .ok (k, r) =>
          match skipWs r with
          | ':' :: r2 =>
            match parseVal fuel r2 with
            | .error m => .error m
            | .ok (v, r3) =>
              match skipWs r3 with
              | ',' :: r4 =>
                match parseObjItems fuel r4 with
                | .error m => .error m
                | .ok (fs, r5) => .ok ((k, v) :: fs, r5)
              | d :: r4 =>
                if d = rbraceChar then .ok ([(k, v)], r4)
                else .error "invalid character after object member"
              | [] => .error "unexpected end of JSON input"
          | _ => .error "invalid character after object key"
      else .error "invalid character looking for object key"
    | [] => .error "unexpected end of JSON input"

end

/-- Parse a complete JSON document, mirroring `json.Unmarshal`'s syntax phase:
the whole input must be consumed, and empty input is reported with Go's message. -/
def jsonParse (s : String) : Except String Jvalue :=
  match parseVal (s.length + 2) s.data with
  | .error m => .error m
  | .ok (v, rest) =>
    if skipWs rest = [] then .ok v
    else .error "invalid character after top-level value"

/-! ### Wire envelope (`Response`, `ResponseInfo`) and its unmarshalling -/

/-- `ResponseInfo` contains a code and message returned by the API
(`client.go`). -/
structure ResponseInfo where
  Code : Int
  Message : String
deriving DecidableEq, Repr

/-- `Response` is the wire envelope common to every API response (`client.go`):
`success`, `errors`, `messages`. -/
structure Response where
  Success : Bool
  Errors : List ResponseInfo
  Messages : List ResponseInfo
deriving DecidableEq, Repr

/-- The zero value of `Response`, as left by `json.Unmarshal` on a `null`
document or absent fields. -/
def Response.zero : Response := ⟨false, [], []⟩

/-- Look up a key in a parsed JSON object (exact-match on the `json:` tag, the
case used throughout the sources). -/
def jlookup (fields : List (String × Jvalue)) (k : String) : Option Jvalue :=
  match fields.find? (fun p => p.1 = k) with
  | some p => some p.2
  | none => none

/-- Decode a JSON value into a Go `string` field: absent handling is done by the
caller; `null` leaves the zero value; anything but a string is a type error. -/
def jAsString (k : String) : Jvalue → Except String String
  | .str s => .ok s
  | .null => .ok ""
  | _ => .error ("cannot unmarshal value into string field " ++ k)

/-- Decode a JSON value into a Go `int` field. -/
def jAsInt (k : String) : Jvalue → Except String Int
  | .num n => .ok n
  | .null => .ok 0
  | _ => .error ("cannot unmarshal value into int field " ++ k)

/-- Decode a JSON value into a Go `bool` field. -/
def jAsBool (k : String) : Jvalue → Except String Bool
  | .bool b => .ok b
  | .null => .ok false
  | _ => .error ("cannot unmarshal value into bool field " ++ k)

/-- Decode an optional object field: absent or `null` yields the Go zero value. -/
def jField (fields : List (String × Jvalue)) (k : String) (dflt : α)
    (dec : Jvalue → Except String α) : Except String α :=
  match jlookup fields k with
  | none => .ok dflt
  | some v => dec v

/-- Unmarshal one element of an `errors`/`messages` array into `ResponseInfo`. -/
def decodeResponseInfo : Jvalue → Except String ResponseInfo
  | .obj fields => do
    let code ← jField fields "code" 0 (jAsInt "code")
    let message ← jField fields "message" "" (jAsString "message")
    .ok ⟨code, message⟩
  | .null => .ok ⟨0, ""⟩
  | _ => .error "cannot unmarshal value into ResponseInfo"

/-- Unmarshal a JSON value into `[]ResponseInfo` (`null` leaves a nil slice). -/
def decodeInfoList : Jvalue → Except String (List ResponseInfo)
  | .arr elems => elems.mapM decodeResponseInfo
  | .null => .ok []
  | _ => .error "cannot unmarshal value into []ResponseInfo"

/-- Unmarshal a JSON value into the `Response` envelope, with Go's semantics for
missing fields (zero values) and unknown fields (ignored). -/
def decodeResponse : Jvalue → Except String Response
  | .obj fields => do
    let success ← jField fields "success" false (jAsBool "success")
    let errs ← jField fields "errors" [] decodeInfoList
    let msgs ← jField fields "messages" [] decodeInfoList
    .ok ⟨success, errs, msgs⟩
  | .null => .ok Response.zero
  | _ => .error "cannot unmarshal value into Response"

/-- `json.Unmarshal(respBody, &errBody)` for `errBody : *Response`
(`client.go`, makeRequest error-decoding path). -/
def unmarshalResponse (s : String) : Except String Response :=
  match jsonParse s with
  | .error m => .error m
  | .ok v => decodeResponse v

/-! ### Client configuration (`ClientParams`, `RetryPolicy`, `New`) -/

/-- Library version (`var Version string = "dev"` in `client.go`). -/
def Version : String := "dev"

/-- `RetryPolicy` from `client.go`.  Durations are nanoseconds
(`time.Duration`). -/
structure RetryPolicy where
  MaxRetries : Nat
  MinRetryDelay : Nat
  MaxRetryDelay : Nat
deriving DecidableEq, Repr

/-- HTTP headers, modelled as an association list of key/value pairs
(`http.Header` with single-valued entries, the only form the sources create). -/
abbrev Headers : Type := List (String × String)

/-- ASCII lowercase of a character. -/
def asciiLower (c : Char) : Char :=
  if 'A' ≤ c ∧ c ≤ 'Z' then Char.ofNat (c.toNat + 32) else c

/-- Case-insensitive equality of header keys, modelling `http.Header`'s
canonical-key behaviour of `Get`/`Set`. -/
def headerKeyEq (a b : String) : Bool :=
  a.data.map asciiLower = b.data.map asciiLower

/-- `http.Header.Get`: the value for a key, or `""` when absent. -/
def headerGet (h : Headers) (k : String) : String :=
  match List.find? (fun p => headerKeyEq p.1 k) h with
  | some p => p.2
  | none => ""

/-- `http.Header.Set`: replace any existing value for the key. -/
def headerSet (h : Headers) (k v : String) : Headers :=
  (k, v) :: List.filter (fun p => ¬ headerKeyEq p.1 k) h

/-- `copyHeader(target, source)` from `client.go`: assign every source entry
into the target map (later assignments win on key collision). -/
def copyHeaderInto (target source : Headers) : Headers :=
  source.foldl (fun acc p => headerSet acc p.1 p.2) target

/-- The data fields of `ClientParams` (`client.go`).  The injected
`HTTPClient`, `RateLimiter` and `Logger` collaborators, and the `BaseURL`,
are modelled by the per-attempt environment below rather than stored here. -/
structure ClientParams where
  Key : String
  Email : String
  UserServiceKey : String
  Token : String
  UserAgent : String
  Headers : Headers
  RetryPolicy : RetryPolicy

/-- `New(config)` from `client.go`: assembles a fresh `ClientParams` from
defaults, rejects key+token together, and copies only the credential fields
from the caller's config.  (Note the source never copies a caller-supplied
`UserAgent`, `Headers`, or `RetryPolicy` into the new client; the model mirrors
that.) -/
def New (config : ClientParams) : Except String ClientParams :=
  if config.Key ≠ "" ∧ config.Token ≠ "" then
    .error "API key and tokens are mutually exclusive"
  else
    .ok
      { Key := if config.Key ≠ "" then config.Key else ""
        Email := if config.Key ≠ "" then config.Email else ""
        Token := if config.Token ≠ "" then config.Token else ""
        UserServiceKey := if config.UserServiceKey ≠ "" then config.UserServiceKey else ""
        UserAgent := if config.UserAgent = "" then "cloudflare-go/" ++ Version else ""
        Headers := []
        RetryPolicy := ⟨3, 1000000000, 30000000000⟩ }

/-! ### Backoff arithmetic

The source computes
`time.Duration(math.Pow(2, float64(i-1)) * float64(MinRetryDelay))`.
`math.Pow(2, k)` is an exact power of two for `k ≤ 1023`, and multiplying a
float64 by a power of two only adjusts the exponent, so the product equals the
IEEE-754 float64 rounding of `MinRetryDelay` times `2^(i-1)` exactly.  The model
therefore is `round53 MinRetryDelay * 2^(i-1)`, where `round53` is the
round-to-nearest-even conversion of an integer to a 53-bit significand — the
int64→float64 conversion every Go platform performs.  The model is faithful
only while the product stays below `2^63` ns, where Go's
float→`time.Duration` (int64) conversion is exact truncation; at or beyond
`2^63` the Go specification makes the conversion implementation-dependent
(amd64 produces the minimum int64, a negative duration that escapes the
`MaxRetryDelay` clamp), so every statement about concrete delay values
carries this bound as an explicit hypothesis. -/

/-- Fuel-driven helper for `bitLen`; the fuel only needs to exceed the number
of binary digits. -/
def bitLenAux : Nat → Nat → Nat
  | 0, _ => 0
  | fuel + 1, n => if n = 0 then 0 else bitLenAux fuel (n / 2) + 1

/-- The number of binary digits of `n` (`⌊log2 n⌋ + 1` for `n > 0`), computed
structurally so that concrete proofs can evaluate it. -/
def bitLen (n : Nat) : Nat := bitLenAux n n

/-- Round a natural number to the nearest float64-representable value
(53-bit significand, ties to even): Go's `float64(n)` for `n : int64 ≥ 0`. -/
def round53 (n : Nat) : Nat :=
  if n < 2 ^ 53 then n
  else
    let e := bitLen n - 53
    let q := n / 2 ^ e
    let r := n % 2 ^ e
    let half := 2 ^ e / 2
    let q2 := if half < r ∨ (r = half ∧ q % 2 = 1) then q + 1 else q
    q2 * 2 ^ e

/-- The backoff delay slept before retry attempt `i ≥ 1`
(`client.go` makeRequest: exponential backoff clamped at `MaxRetryDelay`).
Faithful to the source only while `round53 MinRetryDelay * 2^(i-1) < 2^63`
(see the section comment above); theorems about delay values state that bound
explicitly. -/
def backoffDelay (p : RetryPolicy) (i : Nat) : Nat :=
  let sleepDuration := round53 p.MinRetryDelay * 2 ^ (i - 1)
  if p.MaxRetryDelay < sleepDuration then p.MaxRetryDelay else sleepDuration

/-! ### The transport environment and the `makeRequest` retry loop -/

/-- An `*http.Response` as observed by `makeRequest`: status code, headers,
the request path the response is attached to (`resp.Request.URL.Path`), and
the outcome of `ioutil.ReadAll(resp.Body)`. -/
structure HTTPResponse where
  statusCode : Nat
  headers : Headers
  urlPath : String
  body : Except String String

/-- The outcome of one `HTTPClient.Do` call: a transport-level error message,
or a response. -/
inductive DoOutcome where
  | failure (msg : String) : DoOutcome
  | success (resp : HTTPResponse) : DoOutcome

/-- The transport environment of one `makeRequest` call: the outcome
`HTTPClient.Do` would produce on loop iteration `i`. -/
structure Env where
  attempts : Nat → DoOutcome

/-- The caller's `context.Context`, reduced to what `makeRequest` observes:
whether the context is already cancelled when iteration `i` reaches its first
suspension point (the backoff `select` for `i > 0`, `RateLimiter.Wait` for
`i = 0`). -/
structure Context where
  cancelled : Nat → Bool

/-- `context.Background()`: never cancelled. -/
def Context.background : Context := ⟨fun _ => false⟩

/-- Every error `makeRequest` can return. -/
inductive ReqError where
  /-- "operation aborted during backoff: ..." (context cancelled in the
  backoff `select`). -/
  | abortedDuringBackoff : ReqError
  /-- "error caused by request rate limiting: ..." (`RateLimiter.Wait`
  failed, i.e. the context was cancelled). -/
  | rateLimitWait : ReqError
  /-- "no user credentials provided" (from `request`, before any `Do`). -/
  | noCredentials : ReqError
  /-- `errors.Wrap(err, "HTTP request failed")` around a transport error. -/
  | requestFailed (msg : String) : ReqError
  /-- `errors.Wrap(err, "could not read response body")`. -/
  | readBody (msg : String) : ReqError
  /-- `errors.Errorf("%s", respBody)` for the expression-validation endpoint. -/
  | validateExpr (body : String) : ReqError
  /-- `errors.Errorf("HTTP status %d: service failure", status)`. -/
  | serviceFailure (status : Nat) : ReqError
  /-- `errors.Wrap(err, errUnmarshalErrorBody)`: the error body was not
  parseable JSON; carries the parse failure only. -/
  | unmarshalErrorBody (cause : String) : ReqError
  /-- A structured `*APIRequestError`; the struct itself is defined outside the
  provided sources, its fields (`StatusCode`, `Errors`, `RayID`) are those set
  at the construction site in `makeRequest` and in §3 of the spec. -/
  | api (statusCode : Nat) (errs : List ResponseInfo) (rayID : String) : ReqError
deriving DecidableEq, Repr

/-- Whether `request` finds any credential configured: the source errors only
when `Key`, `Email`, `Token` and `UserServiceKey` are all empty. -/
def hasCredentials (c : ClientParams) : Prop :=
  ¬ (c.Key = "" ∧ c.Email = "" ∧ c.Token = "" ∧ c.UserServiceKey = "")

instance (c : ClientParams) : Decidable (hasCredentials c) :=
  inferInstanceAs (Decidable (¬ _))

/-- The post-loop decoding in `makeRequest` (`client.go`): runs on the response
that exited the loop with `respErr == nil`, using the body bytes read inside
the loop. -/
def decodeTerminal (resp : HTTPResponse) (respBody : String) : Except ReqError String :=
  if 400 ≤ resp.statusCode then
    if resp.urlPath.endsWith "/filters/validate-expr" then
      .error (.validateExpr respBody)
    else if 500 < resp.statusCode then
      .error (.serviceFailure resp.statusCode)
    else
      match unmarshalResponse respBody with
      | .error m => .error (.unmarshalErrorBody m)
      | .ok envl => .error (.api resp.statusCode envl.Errors (headerGet resp.headers "cf-ray"))
  else
    .ok respBody

/-- What one loop iteration decides: either the loop exits with a final result
(`done`), or the iteration was retryable and `exhaust` is the value
`makeRequest` returns if this was the last iteration (the loop's `respErr`
when non-nil — note `errors.Wrap(nil, …) == nil`, so a retryable HTTP status
whose body was read successfully leaves `respErr == nil` and falls through to
`decodeTerminal`). -/
inductive StepResult where
  | done (r : Except ReqError String) : StepResult
  | retry (exhaust : Except ReqError String) : StepResult

/-- The classification of loop iteration `i` in `makeRequest`: the credential
check inside `request`, the `Do` outcome, the retryable-status test
`respErr != nil || status == 429 || status >= 500`, and the body reads. -/
def attemptStep (c : ClientParams) (env : Env) (i : Nat) : StepResult :=
  if hasCredentials c then
    match env.attempts i with
    | .failure m => .retry (.error (.requestFailed m))
    | .success resp =>
      if resp.statusCode = 429 ∨ 500 ≤ resp.statusCode then
        match resp.body with
        | .error m => .retry (.error (.readBody m))
        | .ok b => .retry (decodeTerminal resp b)
      else
        match resp.body with
        | .error m => .done (.error (.readBody m))
        | .ok b => .done (decodeTerminal resp b)
  else
    .retry (.error .noCredentials)

/-- Observable side effects of a `makeRequest` call: how many times `request`
ran, how many times `HTTPClient.Do` was invoked (network sends), and the
backoff delays slept, in order. -/
structure Trace where
  requestCalls : Nat
  doCalls : Nat
  sleeps : List Nat
deriving DecidableEq, Repr

/-- The trace contribution of loop iteration `i` (backoff sleep when `i > 0`,
one `request` call, one `Do` call when credentials are configured). -/
def attemptTrace (c : ClientParams) (i : Nat) (tr : Trace) : Trace :=
  let tr := if 0 < i then { tr with sleeps := tr.sleeps ++ [backoffDelay c.RetryPolicy i] } else tr
  let tr := { tr with requestCalls := tr.requestCalls + 1 }
  if hasCredentials c then { tr with doCalls := tr.doCalls + 1 } else tr

/-- The retry loop of `makeRequest` (`for i := 0; i <= MaxRetries; i++`),
with `remaining = MaxRetries - i` iterations left after the current one.
Cancellation is observed at the backoff `select` (for `i > 0`) or at
`RateLimiter.Wait` (for `i = 0`); a cancelled iteration aborts the whole call
before any `request`. -/
def makeRequestLoop (c : ClientParams) (env : Env) (ctx : Context) :
    Nat → Nat → Trace → Except ReqError String × Trace
  | i, remaining, tr =>
    if 0 < i ∧ ctx.cancelled i then (.error .abortedDuringBackoff, tr)
    else if ctx.cancelled i then (.error .rateLimitWait, tr)
    else
      let tr2 := attemptTrace c i tr
      match attemptStep c env i with
      | .done r => (r, tr2)
      | .retry ex =>
        match remaining with
        | 0 => (ex, tr2)
        | r + 1 => makeRequestLoop c env ctx (i + 1) r tr2

/-- `makeRequest` (`client.go`): the full retry loop over `MaxRetries + 1`
attempts, returning the body bytes or the first terminal error, together with
its observable trace.  The request body encoding that precedes the loop cannot
fail for the `nil`/byte payloads the sources pass and is not modelled. -/
def makeRequest (c : ClientParams) (env : Env) (ctx : Context) :
    Except ReqError String × Trace :=
  makeRequestLoop c env ctx 0 c.RetryPolicy.MaxRetries ⟨0, 0, []⟩

/-- An attempt outcome the loop retries: a transport-level failure, HTTP 429,
or HTTP status ≥ 500. -/
def retryableOutcome : DoOutcome → Prop
  | .failure _ => True
  | .success resp => resp.statusCode = 429 ∨ 500 ≤ resp.statusCode

instance (o : DoOutcome) : Decidable (retryableOutcome o) :=
  match o with
  | .failure _ => isTrue trivial
  | .success resp => inferInstanceAs (Decidable (resp.statusCode = 429 ∨ 500 ≤ resp.statusCode))

/-- The value `makeRequest` returns when the loop exhausts all attempts and the
last iteration saw outcome `o`: the loop's own `respErr` when non-nil, else the
post-loop decoding of the last response. -/
def exhaustResult (o : DoOutcome) : Except ReqError String :=
  match o with
  | .failure m => .error (.requestFailed m)
  | .success resp =>
    match resp.body with
    | .error m => .error (.readBody m)
    | .ok b => decodeTerminal resp b

/-- The loop-internal classification error (`respErr`) left by an attempt with
outcome `o`: `none` mirrors Go's `respErr == nil` (recall
`errors.Wrap(nil, …) == nil`). -/
def loopClassifyErr (o : DoOutcome) : Option ReqError :=
  match o with
  | .failure m => some (.requestFailed m)
  | .success resp =>
    match resp.body with
    | .error m => some (.readBody m)
    | .ok _ => none

/-! ### Request construction (`request`, `client.go`) -/

/-- The headers `request` attaches before calling `HTTPClient.Do`: client
default headers merged with per-call extra headers (extras win), then the
credential headers, `User-Agent`, and a defaulted `Content-Type`. -/
def requestHeaders (c : ClientParams) (extra : Headers) : Headers :=
  let h := copyHeaderInto (copyHeaderInto [] c.Headers) extra
  let h := if c.Key ≠ "" then headerSet (headerSet h "X-Auth-Key" c.Key) "X-Auth-Email" c.Email else h
  let h := if c.UserServiceKey ≠ "" then headerSet h "X-Auth-User-Service-Key" c.UserServiceKey else h
  let h := if c.Token ≠ "" then headerSet h "Authorization" ("Bearer " ++ c.Token) else h
  let h := if c.UserAgent ≠ "" then headerSet h "User-Agent" c.UserAgent else h
  if headerGet h "Content-Type" = "" then headerSet h "Content-Type" "application/json" else h

/-! ### Zones service (`zones.go`)

`time.Time` fields are carried as their raw wire strings (the model does not
validate RFC 3339 syntax); no claim depends on date parsing. -/

/-- `Owner` describes the resource owner (`zones.go`). -/
structure Owner where
  ID : String
  Email : String
  Name : String
  OwnerType : String
deriving DecidableEq, Repr

/-- `ZoneMeta` (`zones.go`). -/
structure ZoneMeta where
  PageRuleQuota : Int
  WildcardProxiable : Bool
  PhishingDetected : Bool
deriving DecidableEq, Repr

/-- `ZonePlanCommon` (`zones.go`). -/
structure ZonePlanCommon where
  ID : String
  Name : String
  Price : Int
  Currency : String
  Frequency : String
deriving DecidableEq, Repr

/-- `ZonePlan` (`zones.go`): embeds `ZonePlanCommon`. -/
structure ZonePlan where
  common : ZonePlanCommon
  LegacyID : String
  IsSubscribed : Bool
  CanSubscribe : Bool
  LegacyDiscount : Bool
  ExternallyManaged : Bool
deriving DecidableEq, Repr

/-- `AccountSettings` (`zones.go`). -/
structure AccountSettings where
  EnforceTwoFactor : Bool
deriving DecidableEq, Repr

/-- `Account` (`zones.go`); `Settings` is a nullable pointer. -/
structure Account where
  ID : String
  Name : String
  AccountType : String
  Settings : Option AccountSettings
deriving DecidableEq, Repr

/-- The anonymous `Host` struct inside `Zone` (`zones.go`). -/
structure ZoneHost where
  Name : String
  Website : String
deriving DecidableEq, Repr

/-- `Zone` (`zones.go`). -/
structure Zone where
  ID : String
  Name : String
  DevMode : Int
  OriginalNS : List String
  OriginalRegistrar : String
  OriginalDNSHost : String
  CreatedOn : String
  ModifiedOn : String
  NameServers : List String
  Owner : Owner
  Permissions : List String
  Plan : ZonePlan
  PlanPending : ZonePlan
  Status : String
  Paused : Bool
  ZoneType : String
  Host : ZoneHost
  VanityNS : List String
  Betas : List String
  DeactReason : String
  Meta : ZoneMeta
  Account : Account
  VerificationKey : String
deriving DecidableEq, Repr

/-- The Go zero value of `Zone`. -/
def Zone.zero : Zone :=
  ⟨"", "", 0, [], "", "", "", "", [], ⟨"", "", "", ""⟩, [],
   ⟨⟨"", "", 0, "", ""⟩, "", false, false, false, false⟩,
   ⟨⟨"", "", 0, "", ""⟩, "", false, false, false, false⟩,
   "", false, "", ⟨"", ""⟩, [], [], "", ⟨0, false, false⟩,
   ⟨"", "", "", none⟩, ""⟩

/-- `ZoneResponse` (`zones.go`): envelope plus a single `Zone` result. -/
structure ZoneResponse where
  envelope : Response
  Result : Zone
deriving DecidableEq, Repr

/-- `ZonesResponse` (`zones.go`): envelope plus a list of zones. -/
structure ZonesResponse where
  envelope : Response
  Result : List Zone
deriving DecidableEq, Repr

/-- `ZoneParams` (`zones.go`): the `url:`-tagged listing filters. -/
structure ZoneParams where
  Match : String
  Name : String
  AccountName : String
  Status : String
  AccountID : String
  Direction : String
deriving DecidableEq, Repr

/-- Unmarshal a JSON value into `[]string` (`null` leaves a nil slice). -/
def decodeStringList : Jvalue → Except String (List String)
  | .arr elems => elems.mapM (jAsString "[]string element")
  | .null => .ok []
  | _ => .error "cannot unmarshal value into []string"

/-- Unmarshal `Owner`. -/
def decodeOwner : Jvalue → Except String Owner
  | .obj fields => do
    let id ← jField fields "id" "" (jAsString "id")
    let email ← jField fields "email" "" (jAsString "email")
    let name ← jField fields "name" "" (jAsString "name")
    let ty ← jField fields "type" "" (jAsString "type")
    .ok ⟨id, email, name, ty⟩
  | .null => .ok ⟨"", "", "", ""⟩
  | _ => .error "cannot unmarshal value into Owner"

/-- Unmarshal `ZoneMeta`. -/
def decodeZoneMeta : Jvalue → Except String ZoneMeta
  | .obj fields => do
    let quota ← jField fields "page_rule_quota" 0 (jAsInt "page_rule_quota")
    let wp ← jField fields "wildcard_proxiable" false (jAsBool "wildcard_proxiable")
    let pd ← jField fields "phishing_detected" false (jAsBool "phishing_detected")
    .ok ⟨quota, wp, pd⟩
  | .null => .ok ⟨0, false, false⟩
  | _ => .error "cannot unmarshal value into ZoneMeta"

/-- Unmarshal `ZonePlan` (the embedded `ZonePlanCommon` fields are flattened
into the same JSON object, Go's embedding semantics). -/
def decodeZonePlan : Jvalue → Except String ZonePlan
  | .obj fields => do
    let id ← jField fields "id" "" (jAsString "id")
    let name ← jField fields "name" "" (jAsString "name")
    let price ← jField fields "price" 0 (jAsInt "price")
    let currency ← jField fields "currency" "" (jAsString "currency")
    let freq ← jField fields "frequency" "" (jAsString "frequency")
    let legacyID ← jField fields "legacy_id" "" (jAsString "legacy_id")
    let isSub ← jField fields "is_subscribed" false (jAsBool "is_subscribed")
    let canSub ← jField fields "can_subscribe" false (jAsBool "can_subscribe")
    let legacyDisc ← jField fields "legacy_discount" false (jAsBool "legacy_discount")
    let extMan ← jField fields "externally_managed" false (jAsBool "externally_managed")
    .ok ⟨⟨id, name, price, currency, freq⟩, legacyID, isSub, canSub, legacyDisc, extMan⟩
  | .null => .ok ⟨⟨"", "", 0, "", ""⟩, "", false, false, false, false⟩
  | _ => .error "cannot unmarshal value into ZonePlan"

/-- Unmarshal `AccountSettings`. -/
def decodeAccountSettings : Jvalue → Except String AccountSettings
  | .obj fields => do
    let etf ← jField fields "enforce_twofactor" false (jAsBool "enforce_twofactor")
    .ok ⟨etf⟩
  | .null => .ok ⟨false⟩
  | _ => .error "cannot unmarshal value into AccountSettings"

/-- Unmarshal `Account` (`Settings` is a pointer: `null`/absent gives nil). -/
def decodeAccount : Jvalue → Except String Account
  | .obj fields => do
    let id ← jField fields "id" "" (jAsString "id")
    let name ← jField fields "name" "" (jAsString "name")
    let ty ← jField fields "type" "" (jAsString "type")
    let settings ←
      match jlookup fields "settings" with
      | none => pure (none : Option AccountSettings)
      | some .null => pure none
      | some v => do
        let s ← decodeAccountSettings v
        pure (some s)
    .ok ⟨id, name, ty, settings⟩
  | .null => .ok ⟨"", "", "", none⟩
  | _ => .error "cannot unmarshal value into Account"

/-- Unmarshal a `time.Time` field; the model keeps the raw string. -/
def decodeTimeString (k : String) : Jvalue → Except String String
  | .str s => .ok s
  | .null => .ok ""
  | _ => .error ("cannot unmarshal value into time field " ++ k)

/-- Unmarshal the anonymous `Host` struct (its fields carry no `json:` tags,
so Go matches `Name`/`Website` case-insensitively). -/
def decodeZoneHost : Jvalue → Except String ZoneHost
  | .obj fields => do
    let pick (k : String) : Except String String :=
      match List.find? (fun p => headerKeyEq p.1 k) fields with
      | none => .ok ""
      | some p => jAsString k p.2
    let name ← pick "Name"
    let website ← pick "Website"
    .ok ⟨name, website⟩
  | .null => .ok ⟨"", ""⟩
  | _ => .error "cannot unmarshal value into Host"

/-- Unmarshal `Zone`. -/
def decodeZone : Jvalue → Except String Zone
  | .obj fields => do
    let id ← jField fields "id" "" (jAsString "id")
    let name ← jField fields "name" "" (jAsString "name")
    let devMode ← jField fields "development_mode" 0 (jAsInt "development_mode")
    let origNS ← jField fields "original_name_servers" [] decodeStringList
    let origReg ← jField fields "original_registrar" "" (jAsString "original_registrar")
    let origDNS ← jField fields "original_dnshost" "" (jAsString "original_dnshost")
    let createdOn ← jField fields "created_on" "" (decodeTimeString "created_on")
    let modifiedOn ← jField fields "modified_on" "" (decodeTimeString "modified_on")
    let ns ← jField fields "name_servers" [] decodeStringList
    let owner ← jField fields "owner" ⟨"", "", "", ""⟩ decodeOwner
    let perms ← jField fields "permissions" [] decodeStringList
    let plan ← jField fields "plan" Zone.zero.Plan decodeZonePlan
    let planPending ← jField fields "plan_pending" Zone.zero.Plan decodeZonePlan
    let status ← jField fields "status" "" (jAsString "status")
    let paused ← jField fields "paused" false (jAsBool "paused")
    let ty ← jField fields "type" "" (jAsString "type")
    let host ← jField fields "host" ⟨"", ""⟩ decodeZoneHost
    let vanity ← jField fields "vanity_name_servers" [] decodeStringList
    let betas ← jField fields "betas" [] decodeStringList
    let deact ← jField fields "deactivation_reason" "" (jAsString "deactivation_reason")
    let meta ← jField fields "meta" ⟨0, false, false⟩ decodeZoneMeta
    let account ← jField fields "account" ⟨"", "", "", none⟩ decodeAccount
    let vkey ← jField fields "verification_key" "" (jAsString "verification_key")
    .ok ⟨id, name, devMode, origNS, origReg, origDNS, createdOn, modifiedOn, ns, owner,
         perms, plan, planPending, status, paused, ty, host, vanity, betas, deact,
         meta, account, vkey⟩
  | .null => .ok Zone.zero
  | _ => .error "cannot unmarshal value into Zone"

/-- `json.Unmarshal` into `ZoneResponse`. -/
def unmarshalZoneResponse (s : String) : Except String ZoneResponse :=
  match jsonParse s with
  | .error m => .error m
  | .ok (.obj fields) => do
    let envl ← decodeResponse (.obj fields)
    let result ← jField fields "result" Zone.zero decodeZone
    .ok ⟨envl, result⟩
  | .ok .null => .ok ⟨Response.zero, Zone.zero⟩
  | .ok _ => .error "cannot unmarshal value into ZoneResponse"

/-- `json.Unmarshal` into `ZonesResponse`. -/
def unmarshalZonesResponse (s : String) : Except String ZonesResponse :=
  match jsonParse s with
  | .error m => .error m
  | .ok (.obj fields) => do
    let envl ← decodeResponse (.obj fields)
    let result ←
      match jlookup fields "result" with
      | none => pure ([] : List Zone)
      | some .null => pure []
      | some (.arr elems) => elems.mapM decodeZone
      | some _ => Except.error "cannot unmarshal value into []Zone"
    .ok ⟨envl, result⟩
  | .ok .null => .ok ⟨Response.zero, []⟩
  | .ok _ => .error "cannot unmarshal value into ZonesResponse"

/-- Modelled from the spec: `isValidZoneIdentifier` is called by `zones.go` but
defined outside the provided sources.  Modelled as accepting 32-character
hexadecimal identifiers — the shape of `testZoneID`
(`d56084adb405e0b7e32c52321bf07be6`) and of every Cloudflare zone id; claims
about the zones service only use it under an explicit validity hypothesis. -/
def isValidZoneIdentifier (zoneID : String) : Bool :=
  zoneID.data.length = 32 ∧ zoneID.data.all (fun c => c.isDigit ∨ ('a' ≤ c ∧ c ≤ 'f'))

/-- Errors of the zones service methods. -/
inductive ZoneError where
  /-- `fmt.Errorf(errInvalidZoneIdentifer, zoneID)`. -/
  | invalidZoneIdentifier (zoneID : String) : ZoneError
  /-- `fmt.Errorf("failed to unmarshal zone JSON data: %w", err)`. -/
  | unmarshalZoneJSON (cause : String) : ZoneError
deriving DecidableEq, Repr

/-- `res, _ := s.client.Call(ctx, method, path, nil)` as the zones methods use
it: the error is discarded and a failed call leaves `res` as nil bytes.  The
method/path pair influences the outcome only through `env`. -/
def callBytes (c : ClientParams) (env : Env) (ctx : Context) (uri : String) : String :=
  let _ := uri
  match (makeRequest c env ctx).1 with
  | .ok b => b
  | .error _ => ""

/-- `query.Values(params).Encode()`: the non-empty `url:`-tagged fields as
`k=v` pairs, keys in `Encode`'s sorted order (percent-escaping not modelled). -/
def zoneParamsQuery (params : ZoneParams) : String :=
  let pairs :=
    (if params.AccountID = "" then [] else [("account.id", params.AccountID)]) ++
    (if params.AccountName = "" then [] else [("account.name", params.AccountName)]) ++
    (if params.Direction = "" then [] else [("direction", params.Direction)]) ++
    (if params.Match = "" then [] else [("match", params.Match)]) ++
    (if params.Name = "" then [] else [("name", params.Name)]) ++
    (if params.Status = "" then [] else [("status", params.Status)])
  String.intercalate "&" (pairs.map (fun p => p.1 ++ "=" ++ p.2))

/-- `ZonesService.Get` (`zones.go`): validates the identifier, then calls
`Call` with `context.Background()` (not the caller's `ctx`), discards the call
error, and unmarshals whatever bytes came back. -/
def ZonesService.Get (c : ClientParams) (env : Env) (ctx : Context) (zoneID : String) :
    Except ZoneError Zone :=
  let _ := ctx
  if ¬ isValidZoneIdentifier zoneID then
    .error (.invalidZoneIdentifier zoneID)
  else
    let res := callBytes c env Context.background ("/zones/" ++ zoneID)
    match unmarshalZoneResponse res with
    | .error e => .error (.unmarshalZoneJSON e)
    | .ok r => .ok r.Result

/-- `ZonesService.List` (`zones.go`): builds the query string, calls `Call`
with `context.Background()`, discards the call error, and unmarshals. -/
def ZonesService.List (c : ClientParams) (env : Env) (ctx : Context) (params : ZoneParams) :
    Except ZoneError (List Zone) :=
  let _ := ctx
  let queryParams := zoneParamsQuery params
  let uri := "/zones" ++ (if queryParams = "" then "" else "?" ++ queryParams)
  let res := callBytes c env Context.background uri
  match unmarshalZonesResponse res with
  | .error e => .error (.unmarshalZoneJSON e)
  | .ok r => .ok r.Result

/-- `ZonesService.Delete` (`zones.go`): validates the identifier, calls `Call`
with `context.Background()`, discards the call error, and unmarshals. -/
def ZonesService.Delete (c : ClientParams) (env : Env) (ctx : Context) (zoneID : String) :
    Except ZoneError Unit :=
  let _ := ctx
  if ¬ isValidZoneIdentifier zoneID then
    .error (.invalidZoneIdentifier zoneID)
  else
    let res := callBytes c env Context.background ("/zones/" ++ zoneID)
    match unmarshalZoneResponse res with
    | .error e => .error (.unmarshalZoneJSON e)
    | .ok _ => .ok ()

/-! ### Loop-unrolling lemmas for `makeRequest` -/

/-- The backoff delays slept by iterations `0 .. k-1` (iteration `0` does not
sleep). -/
def sleepsUpTo (p : RetryPolicy) : Nat → List Nat
  | 0 => []
  | k + 1 => sleepsUpTo p k ++ (if 0 < k then [backoffDelay p k] else [])

/-- The trace accumulated by iterations `0 .. k-1` when every one of them ran
(each performs one `request`, and one `Do` exactly when credentials exist). -/
def traceUpTo (c : ClientParams) (k : Nat) : Trace :=
  ⟨k, if hasCredentials c then k else 0, sleepsUpTo c.RetryPolicy k⟩

lemma attemptTrace_traceUpTo (c : ClientParams) (k : Nat) :
    attemptTrace c k (traceUpTo c k) = traceUpTo c (k + 1) := by
  by_cases hc : hasCredentials c <;> by_cases hk : 0 < k <;>
    simp [attemptTrace, traceUpTo, sleepsUpTo, hc, hk]

lemma attemptStep_eq (c : ClientParams) (env : Env) (i : Nat)
    (hc : hasCredentials c) :
    attemptStep c env i =
      if retryableOutcome (env.attempts i) then .retry (exhaustResult (env.attempts i))
      else .done (exhaustResult (env.attempts i)) := by
  unfold attemptStep
  rw [if_pos hc]
  cases h : env.attempts i with
  | failure m => simp [retryableOutcome, exhaustResult]
  | success resp =>
    by_cases hr : resp.statusCode = 429 ∨ 500 ≤ resp.statusCode <;>
      cases hb : resp.body <;> simp [retryableOutcome, exhaustResult, hr, hb]

lemma attemptStep_noCredentials (c : ClientParams) (env : Env) (i : Nat)
    (hc : ¬ hasCredentials c) :
    attemptStep c env i = .retry (.error .noCredentials) := by
  unfold attemptStep
  rw [if_neg hc]

/-- Unrolling: if iterations `0 .. k-1` all decided to retry (and none was
cancelled), `makeRequest` reaches iteration `k` with the accumulated trace. -/
lemma makeRequest_runTo (c : ClientParams) (env : Env) (ctx : Context)
    (k : Nat) (hk : k ≤ c.RetryPolicy.MaxRetries)
    (hctx : ∀ j, j < k → ctx.cancelled j = false)
    (hret : ∀ j, j < k → ∃ ex, attemptStep c env j = .retry ex) :
    makeRequest c env ctx =
      makeRequestLoop c env ctx k (c.RetryPolicy.MaxRetries - k) (traceUpTo c k) := by
  induction k with
  | zero =>
    simp [makeRequest, traceUpTo, sleepsUpTo]
  | succ k ih =>
    have hk' : k ≤ c.RetryPolicy.MaxRetries := Nat.le_of_succ_le hk
    rw [ih hk' (fun j hj => hctx j (Nat.lt_succ_of_lt hj))
        (fun j hj => hret j (Nat.lt_succ_of_lt hj))]
    have hrem : c.RetryPolicy.MaxRetries - k = (c.RetryPolicy.MaxRetries - (k + 1)) + 1 := by
      omega
    obtain ⟨ex, hex⟩ := hret k (Nat.lt_succ_self k)
    rw [hrem, makeRequestLoop]
    simp [hctx k (Nat.lt_succ_self k), hex, attemptTrace_traceUpTo]

/-- If additionally iteration `k` is terminal, `makeRequest` returns its
result with the trace of `k + 1` completed iterations. -/
lemma makeRequest_done (c : ClientParams) (env : Env) (ctx : Context)
    (k : Nat) (hk : k ≤ c.RetryPolicy.MaxRetries)
    (hctx : ∀ j, j ≤ k → ctx.cancelled j = false)
    (hret : ∀ j, j < k → ∃ ex, attemptStep c env j = .retry ex)
    (r : Except ReqError String) (hdone : attemptStep c env k = .done r) :
    makeRequest c env ctx = (r, traceUpTo c (k + 1)) := by
  rw [makeRequest_runTo c env ctx k hk (fun j hj => hctx j (Nat.le_of_lt hj)) hret,
      makeRequestLoop]
  simp [hctx k (Nat.le_refl k), hdone, attemptTrace_traceUpTo]

/-- If every iteration through the last one retries, `makeRequest` returns the
last iteration's exhaustion value with the full trace. -/
lemma makeRequest_exhaust (c : ClientParams) (env : Env) (ctx : Context)
    (hctx : ∀ j, j ≤ c.RetryPolicy.MaxRetries → ctx.cancelled j = false)
    (hret : ∀ j, j < c.RetryPolicy.MaxRetries → ∃ ex, attemptStep c env j = .retry ex)
    (ex : Except ReqError String)
    (hlast : attemptStep c env c.RetryPolicy.MaxRetries = .retry ex) :
    makeRequest c env ctx = (ex, traceUpTo c (c.RetryPolicy.MaxRetries + 1)) := by
  rw [makeRequest_runTo c env ctx c.RetryPolicy.MaxRetries (Nat.le_refl _)
      (fun j hj => hctx j (Nat.le_of_lt hj)) hret,
      Nat.sub_self, makeRequestLoop]
  simp [hctx _ (Nat.le_refl _), hlast, attemptTrace_traceUpTo]

lemma attemptTrace_doCalls (c : ClientParams) (i : Nat) (tr : Trace) :
    tr.doCalls ≤ (attemptTrace c i tr).doCalls := by
  by_cases hc : hasCredentials c <;> by_cases hi : 0 < i <;>
    simp [attemptTrace, hc, hi]

/-- The loop only ever grows the `Do` counter. -/
lemma makeRequestLoop_doCalls_mono (c : ClientParams) (env : Env) (ctx : Context) :
    ∀ r i tr, tr.doCalls ≤ ((makeRequestLoop c env ctx i r tr).2).doCalls := by
  intro r
  induction r with
  | zero =>
    intro i tr
    rw [makeRequestLoop]
    split
    · simp
    · split
      · simp
      · cases hstep : attemptStep c env i <;> simp [hstep, attemptTrace_doCalls]
  | succ r ih =>
    intro i tr
    rw [makeRequestLoop]
    split
    · simp
    · split
      · simp
      · cases hstep : attemptStep c env i with
        | done res => simp [hstep, attemptTrace_doCalls]
        | retry ex =>
          simp only [hstep]
          exact le_trans (attemptTrace_doCalls c i tr) (ih (i + 1) (attemptTrace c i tr))

/-- A non-cancelled iteration with credentials performs at least one more
`Do` call. -/
lemma makeRequestLoop_doCalls_step (c : ClientParams) (env : Env) (ctx : Context)
    (r i : Nat) (tr : Trace) (hc : hasCredentials c) (hctx : ctx.cancelled i = false) :
    tr.doCalls + 1 ≤ ((makeRequestLoop c env ctx i r tr).2).doCalls := by
  have hat : (attemptTrace c i tr).doCalls = tr.doCalls + 1 := by
    by_cases hi : 0 < i <;> simp [attemptTrace, hc, hi]
  rw [makeRequestLoop]
  cases hstep : attemptStep c env i with
  | done res => simp [hctx, hstep, hat]
  | retry ex =>
    cases r with
    | zero => simp [hctx, hstep, hat]
    | succ r =>
      simp only [hctx, hstep, Bool.false_eq_true, and_false, if_false, ite_false]
      calc tr.doCalls + 1 = (attemptTrace c i tr).doCalls := hat.symm
        _ ≤ _ := makeRequestLoop_doCalls_mono c env ctx r (i + 1) (attemptTrace c i tr)

/-! ### Facts about the decoded results -/

/-- Every post-loop decoding of a status ≥ 400 yields an error. -/
lemma decodeTerminal_isError (resp : HTTPResponse) (b : String)
    (h : 400 ≤ resp.statusCode) :
    ∃ e, decodeTerminal resp b = .error e := by
  unfold decodeTerminal
  rw [if_pos h]
  by_cases h1 : resp.urlPath.endsWith "/filters/validate-expr"
  · exact ⟨_, by rw [if_pos h1]⟩
  · rw [if_neg h1]
    by_cases h2 : 500 < resp.statusCode
    · exact ⟨_, by rw [if_pos h2]⟩
    · rw [if_neg h2]
      cases hu : unmarshalResponse b with
      | error m => exact ⟨_, rfl⟩
      | ok envl => exact ⟨_, rfl⟩

/-- Exhausting the loop on a retryable outcome always surfaces an error. -/
lemma exhaustResult_isError (o : DoOutcome) (hr : retryableOutcome o) :
    ∃ e, exhaustResult o = .error e := by
  cases o with
  | failure m => exact ⟨_, rfl⟩
  | success resp =>
    cases hb : resp.body with
    | error m => exact ⟨.readBody m, by simp [exhaustResult, hb]⟩
    | ok b =>
      have h400 : 400 ≤ resp.statusCode := by
        rcases hr with h | h <;> omega
      obtain ⟨e, he⟩ := decodeTerminal_isError resp b h400
      exact ⟨e, by simp [exhaustResult, hb, he]⟩

/-! ### Backoff arithmetic lemmas -/

lemma backoffDelay_eq_min (p : RetryPolicy) (i : Nat) :
    backoffDelay p i = min p.MaxRetryDelay (round53 p.MinRetryDelay * 2 ^ (i - 1)) := by
  unfold backoffDelay
  rcases Nat.lt_or_ge p.MaxRetryDelay (round53 p.MinRetryDelay * 2 ^ (i - 1)) with h | h
  · rw [if_pos h, Nat.min_eq_left (Nat.le_of_lt h)]
  · rw [if_neg (Nat.not_lt.mpr h), Nat.min_eq_right h]

/-- Go's int64→float64 conversion is exact below `2^53`. -/
lemma round53_small (n : Nat) (h : n < 2 ^ 53) : round53 n = n := by
  unfold round53
  rw [if_pos h]

lemma backoffDelay_mono (p : RetryPolicy) {i j : Nat} (h : i ≤ j) :
    backoffDelay p (i + 1) ≤ backoffDelay p (j + 1) := by
  rw [backoffDelay_eq_min, backoffDelay_eq_min]
  simp only [Nat.add_sub_cancel]
  exact min_le_min (le_refl _)
    (Nat.mul_le_mul_left _ (Nat.pow_le_pow_right (by norm_num) h))

/-- Closed form of the slept delays after a full run of `n + 1` attempts. -/
lemma sleepsUpTo_closed (p : RetryPolicy) (n : Nat) :
    sleepsUpTo p (n + 1) = (List.range n).map (fun j => backoffDelay p (j + 1)) := by
  induction n with
  | zero => simp [sleepsUpTo]
  | succ n ih =>
    rw [show sleepsUpTo p (n + 1 + 1) =
          sleepsUpTo p (n + 1) ++ (if 0 < n + 1 then [backoffDelay p (n + 1)] else []) from rfl,
        ih, List.range_succ]
    simp

/-! ### Header lemmas -/

lemma headerKeyEq_refl (k : String) : headerKeyEq k k = true := by
  simp [headerKeyEq]

/-- `Get` after `Set`: the set key answers with the new value, other keys are
untouched. -/
lemma headerGet_headerSet (h : Headers) (k v k' : String) :
    headerGet (headerSet h k v) k' =
      if headerKeyEq k k' then v else headerGet h k' := by
  by_cases hkk : headerKeyEq k k' = true
  · simp [headerGet, headerSet, List.find?, hkk]
  · have hkk' : headerKeyEq k k' = false := by
      cases hq : headerKeyEq k k' with
      | false => rfl
      | true => exact absurd hq hkk
    rw [if_neg (by simp [hkk'])]
    unfold headerGet headerSet
    simp only [List.find?, hkk']
    induction h with
    | nil => simp
    | cons a t ih =>
      by_cases ha : headerKeyEq a.1 k = true
      · have hak' : headerKeyEq a.1 k' = false := by
          simp only [headerKeyEq] at ha hkk' ⊢
          rw [decide_eq_true_iff] at ha
          rw [decide_eq_false_iff_not] at hkk'
          rw [decide_eq_false_iff_not, ha]
          exact hkk'
        simp only [List.filter, ha, Bool.not_true, List.find?, hak']
        simpa using ih
      · have ha' : headerKeyEq a.1 k = false := by
          cases hq : headerKeyEq a.1 k with
          | false => rfl
          | true => exact absurd hq ha
        simp only [List.filter, ha', Bool.not_false, List.find?]
        cases hq : headerKeyEq a.1 k' with
        | true => rfl
        | false => simpa using ih

/-! ### Concrete fixtures for witnesses and counterexamples -/

/-- A key/email-authenticated client with `MaxRetries = 2`. -/
def keyClient : ClientParams :=
  ⟨"deadbeef", "user@example.com", "", "", "cloudflare-go/dev", [],
   ⟨2, 1000000000, 30000000000⟩⟩

/-- A client with no credential fields at all (key, email, token and
service-key all empty) and the default retry policy. -/
def noCredClient : ClientParams :=
  ⟨"", "", "", "", "cloudflare-go/dev", [], ⟨3, 1000000000, 30000000000⟩⟩

/-- A client whose only non-empty credential-related field is `Email`. -/
def emailOnlyClient : ClientParams :=
  ⟨"", "user@example.com", "", "", "cloudflare-go/dev", [], ⟨3, 1000000000, 30000000000⟩⟩

/-- A client whose `MinRetryDelay` is `2^53 + 1` ns, the smallest duration the
int64→float64 conversion cannot represent. -/
def bigMinClient : ClientParams :=
  ⟨"", "", "", "v1token", "cloudflare-go/dev", [], ⟨1, 2 ^ 53 + 1, 2 ^ 60⟩⟩

/-- A client whose `MaxRetryDelay` clamps the third backoff delay. -/
def clampClient : ClientParams :=
  ⟨"deadbeef", "user@example.com", "", "", "cloudflare-go/dev", [],
   ⟨3, 1000000000, 3000000000⟩⟩

/-- A key/email-authenticated client that allows no retries. -/
def zeroRetryClient : ClientParams :=
  ⟨"deadbeef", "user@example.com", "", "", "cloudflare-go/dev", [],
   ⟨0, 1000000000, 30000000000⟩⟩

/-- A transport that always fails at the connection level. -/
def envFail : Env := ⟨fun _ => .failure "connection refused"⟩

/-- A terminal 404 whose body is a minimal envelope. -/
def resp404 : HTTPResponse := ⟨404, [], "/zones/abc", .ok "\x7b\"success\":false\x7d"⟩

/-- A transport that always answers with `resp404`. -/
def env404 : Env := ⟨fun _ => .success resp404⟩

/-- A persistent 503 with a readable non-JSON body. -/
def env503 : Env := ⟨fun _ => .success ⟨503, [], "/x", .ok "oops"⟩⟩

/-- The spec's example error envelope (code 9109, "Invalid access"). -/
def body403 : String :=
  "\x7b\"success\":false,\"errors\":[\x7b\"code\":9109,\"message\":\"Invalid access\"\x7d]\x7d"

/-- A 403 response carrying `body403` and a `cf-ray` header. -/
def resp403 : HTTPResponse := ⟨403, [("cf-ray", "ray-1234")], "/zones/abc", .ok body403⟩

/-- A transport that always answers with `resp403`. -/
def env403 : Env := ⟨fun _ => .success resp403⟩

/-- A 404 with a malformed (non-JSON) body. -/
def env404bad : Env := ⟨fun _ => .success ⟨404, [], "/zones/abc", .ok "not json"⟩⟩

/-- A 400 with the same malformed body. -/
def env400bad : Env := ⟨fun _ => .success ⟨400, [], "/zones/abc", .ok "not json"⟩⟩

/-- A transport that always answers 200 with a small success envelope. -/
def env200ok : Env :=
  ⟨fun _ => .success ⟨200, [], "/zones", .ok "\x7b\"success\":true\x7d"⟩⟩

/-! ### Claim theorems -/

/-- C1: for every retry policy with `MaxRetries = n ≥ 0`, if every attempt ends
in a retryable state (transport-level error, HTTP 429, or HTTP status ≥ 500),
`makeRequest` performs exactly `n + 1` HTTP send attempts (`HTTPClient.Do`
invocations) and then surfaces the final error; it never performs a further
attempt after a terminal outcome. -/
theorem claim1_exhausts_all_attempts (c : ClientParams) (env : Env) (ctx : Context)
    (hc : hasCredentials c)
    (hctx : ∀ j, j ≤ c.RetryPolicy.MaxRetries → ctx.cancelled j = false)
    (hret : ∀ j, j ≤ c.RetryPolicy.MaxRetries → retryableOutcome (env.attempts j)) :
    (makeRequest c env ctx).2.doCalls = c.RetryPolicy.MaxRetries + 1 ∧
    ∃ e, (makeRequest c env ctx).1 = .error e := by
  obtain ⟨e, he⟩ := exhaustResult_isError _ (hret _ (Nat.le_refl _))
  have hstep : attemptStep c env c.RetryPolicy.MaxRetries =
      .retry (exhaustResult (env.attempts c.RetryPolicy.MaxRetries)) := by
    rw [attemptStep_eq c env _ hc, if_pos (hret _ (Nat.le_refl _))]
  have hrun := makeRequest_exhaust c env ctx hctx
    (fun j hj => ⟨_, by rw [attemptStep_eq c env j hc, if_pos (hret j (Nat.le_of_lt hj))]⟩)
    _ hstep
  rw [hrun]
  exact ⟨by simp [traceUpTo, hc], ⟨e, he⟩⟩

/-- C1 witness: a key-authenticated client with `MaxRetries = 2` against a
persistently failing transport performs exactly 3 sends and errors out. -/
theorem claim1_witness :
    (makeRequest keyClient envFail Context.background).2.doCalls = 2 + 1 ∧
    ∃ e, (makeRequest keyClient envFail Context.background).1 = .error e :=
  claim1_exhausts_all_attempts keyClient envFail Context.background
    (by decide) (fun j _ => rfl) (fun j _ => trivial)

/-- C2 counterexample: with key, email, token and service-key all empty the
call does surface the "no credentials" error with zero `Do` calls, but only
after 4 `request` attempts and 3 backoff sleeps — it is neither immediate nor
unretried; and with only `Email` non-empty (so none of key, token, or
service-key configured) the credential check passes, a network request is
issued, and the call succeeds instead of failing. -/
theorem claim2_counterexample :
    ((makeRequest noCredClient envFail Context.background).1 = .error .noCredentials ∧
     (makeRequest noCredClient envFail Context.background).2.doCalls = 0 ∧
     (makeRequest noCredClient envFail Context.background).2.requestCalls = 4 ∧
     (makeRequest noCredClient envFail Context.background).2.sleeps =
       [1000000000, 2000000000, 4000000000]) ∧
    ((makeRequest emailOnlyClient env200ok Context.background).1 =
       .ok "\x7b\"success\":true\x7d" ∧
     (makeRequest emailOnlyClient env200ok Context.background).2.doCalls = 1) :=
  ⟨⟨rfl, rfl, rfl, rfl⟩, ⟨rfl, rfl⟩⟩

/-- C2 (amended): when key, email, token and service-key are all empty, every
iteration fails the credential check inside `request` before any
`HTTPClient.Do` call; the failure is treated like any other request error and
retried, so the loop runs `MaxRetries + 1` times with the usual backoff sleeps
and only then surfaces the "no user credentials provided" error.  Zero network
requests are ever issued. -/
theorem claim2_no_credentials_retried (c : ClientParams) (env : Env) (ctx : Context)
    (hc : ¬ hasCredentials c)
    (hctx : ∀ j, j ≤ c.RetryPolicy.MaxRetries → ctx.cancelled j = false) :
    (makeRequest c env ctx).1 = .error .noCredentials ∧
    (makeRequest c env ctx).2.doCalls = 0 ∧
    (makeRequest c env ctx).2.requestCalls = c.RetryPolicy.MaxRetries + 1 ∧
    (makeRequest c env ctx).2.sleeps = sleepsUpTo c.RetryPolicy (c.RetryPolicy.MaxRetries + 1) := by
  have hrun := makeRequest_exhaust c env ctx hctx
    (fun j _ => ⟨_, attemptStep_noCredentials c env j hc⟩)
    _ (attemptStep_noCredentials c env _ hc)
  rw [hrun]
  exact ⟨rfl, by simp [traceUpTo, hc], rfl, rfl⟩

/-- C2 witness: the all-empty client exercises the amended claim concretely. -/
theorem claim2_witness :
    (makeRequest noCredClient env200ok Context.background).1 = .error .noCredentials ∧
    (makeRequest noCredClient env200ok Context.background).2.doCalls = 0 ∧
    (makeRequest noCredClient env200ok Context.background).2.requestCalls = 3 + 1 ∧
    (makeRequest noCredClient env200ok Context.background).2.sleeps =
      sleepsUpTo noCredClient.RetryPolicy (3 + 1) :=
  claim2_no_credentials_retried noCredClient env200ok Context.background
    (by decide) (fun j _ => rfl)

/-- C3 counterexample: with `MinRetryDelay = 2^53 + 1` ns (an exact `int64`
duration) and `MaxRetryDelay = 2^60` ns, the delay slept before retry attempt
1 is `2^53` ns — the float64 rounding of `MinRetryDelay` — and not
`min(MaxRetryDelay, MinRetryDelay * 2^0) = 2^53 + 1`. -/
theorem claim3_counterexample :
    (makeRequest bigMinClient envFail Context.background).2.sleeps = [2 ^ 53] ∧
    (2 ^ 53 : Nat) ≠ min ((2 : Nat) ^ 60) ((2 ^ 53 + 1) * 2 ^ (1 - 1)) :=
  ⟨by decide, by decide⟩

/-- C3 (amended): provided every product
`float64(MinRetryDelay) * 2^(i-1)` stays below `2^63` ns — the regime in which
Go's float64→`time.Duration` conversion is exact; beyond it the conversion is
implementation-dependent and no delay formula is asserted — the delay slept
before retry attempt `i ≥ 1` equals
`min(MaxRetryDelay, float64(MinRetryDelay) * 2^(i-1))`, where `float64(·)` is
the 53-bit round-to-nearest-even conversion the source incurs; the delays are
monotonically non-decreasing in `i`, and whenever `MinRetryDelay < 2^53` ns
(every realistic policy) the schedule equals the claimed
`min(MaxRetryDelay, MinRetryDelay * 2^(i-1))` exactly.  The bound is stated on
the largest product, reached before the final retry attempt. -/
theorem claim3_backoff_schedule (c : ClientParams) (env : Env) (ctx : Context)
    (hc : hasCredentials c)
    (_hbound : round53 c.RetryPolicy.MinRetryDelay * 2 ^ (c.RetryPolicy.MaxRetries - 1) < 2 ^ 63)
    (hctx : ∀ j, j ≤ c.RetryPolicy.MaxRetries → ctx.cancelled j = false)
    (hret : ∀ j, j ≤ c.RetryPolicy.MaxRetries → retryableOutcome (env.attempts j)) :
    (makeRequest c env ctx).2.sleeps =
      (List.range c.RetryPolicy.MaxRetries).map
        (fun j => min c.RetryPolicy.MaxRetryDelay (round53 c.RetryPolicy.MinRetryDelay * 2 ^ j)) ∧
    List.Pairwise (· ≤ ·) (makeRequest c env ctx).2.sleeps ∧
    (c.RetryPolicy.MinRetryDelay < 2 ^ 53 →
      (makeRequest c env ctx).2.sleeps =
        (List.range c.RetryPolicy.MaxRetries).map
          (fun j => min c.RetryPolicy.MaxRetryDelay (c.RetryPolicy.MinRetryDelay * 2 ^ j))) := by
  have hstep : attemptStep c env c.RetryPolicy.MaxRetries =
      .retry (exhaustResult (env.attempts c.RetryPolicy.MaxRetries)) := by
    rw [attemptStep_eq c env _ hc, if_pos (hret _ (Nat.le_refl _))]
  have hrun := makeRequest_exhaust c env ctx hctx
    (fun j hj => ⟨_, by rw [attemptStep_eq c env j hc, if_pos (hret j (Nat.le_of_lt hj))]⟩)
    _ hstep
  have hsleeps : (makeRequest c env ctx).2.sleeps =
      (List.range c.RetryPolicy.MaxRetries).map (fun j => backoffDelay c.RetryPolicy (j + 1)) := by
    rw [hrun]
    exact sleepsUpTo_closed c.RetryPolicy c.RetryPolicy.MaxRetries
  have hfun : (fun j => backoffDelay c.RetryPolicy (j + 1)) =
      (fun j => min c.RetryPolicy.MaxRetryDelay (round53 c.RetryPolicy.MinRetryDelay * 2 ^ j)) :=
    funext fun j => by rw [backoffDelay_eq_min, Nat.add_sub_cancel]
  refine ⟨by rw [hsleeps, hfun], ?_, ?_⟩
  · rw [hsleeps]
    exact (List.pairwise_lt_range _).map _
      (fun a b hab => backoffDelay_mono c.RetryPolicy (Nat.le_of_lt hab))
  · intro h53
    rw [hsleeps, hfun, round53_small _ h53]

/-- C3 witness: default-style policy (`Min = 1s`, `Max = 3s`, `MaxRetries = 3`)
gives the schedule `[1s, 2s, 3s]`, the third delay clamped at `Max`. -/
theorem claim3_witness :
    (makeRequest clampClient envFail Context.background).2.sleeps =
      (List.range 3).map (fun j => min 3000000000 (round53 1000000000 * 2 ^ j)) ∧
    List.Pairwise (· ≤ ·) (makeRequest clampClient envFail Context.background).2.sleeps ∧
    ((1000000000 : Nat) < 2 ^ 53 →
      (makeRequest clampClient envFail Context.background).2.sleeps =
        (List.range 3).map (fun j => min 3000000000 (1000000000 * 2 ^ j))) :=
  claim3_backoff_schedule clampClient envFail Context.background
    (by decide) (by decide) (fun j _ => rfl) (fun j _ => trivial)

/-- C4: reaching attempt `k` (all earlier attempts retryable, none cancelled),
the outcome at `k` is terminal — i.e. not a transport failure, not 429, not
≥ 500 — precisely when the loop stops there: a terminal outcome yields exactly
`k + 1` sends and hands the response to the post-loop decoding, while a
retryable outcome with attempts left leads to at least one further send. -/
theorem claim4_retry_classification (c : ClientParams) (env : Env) (ctx : Context) (k : Nat)
    (hc : hasCredentials c)
    (hk : k ≤ c.RetryPolicy.MaxRetries)
    (hctx : ∀ j, j ≤ k → ctx.cancelled j = false)
    (hret : ∀ j, j < k → retryableOutcome (env.attempts j)) :
    (¬ retryableOutcome (env.attempts k) →
      (makeRequest c env ctx).2.doCalls = k + 1 ∧
      ∀ resp b, env.attempts k = .success resp → resp.body = .ok b →
        (makeRequest c env ctx).1 = decodeTerminal resp b) ∧
    (retryableOutcome (env.attempts k) → k < c.RetryPolicy.MaxRetries →
      ctx.cancelled (k + 1) = false →
      k + 2 ≤ (makeRequest c env ctx).2.doCalls) := by
  constructor
  · intro hterm
    have hstep : attemptStep c env k = .done (exhaustResult (env.attempts k)) := by
      rw [attemptStep_eq c env k hc, if_neg hterm]
    have hrun := makeRequest_done c env ctx k hk hctx
      (fun j hj => ⟨_, by rw [attemptStep_eq c env j hc, if_pos (hret j hj)]⟩) _ hstep
    rw [hrun]
    refine ⟨by simp [traceUpTo, hc], ?_⟩
    intro resp b hresp hbody
    show exhaustResult (env.attempts k) = decodeTerminal resp b
    rw [hresp]
    simp [exhaustResult, hbody]
  · intro hr hklt hctx1
    have hrun := makeRequest_runTo c env ctx (k + 1) (Nat.succ_le_of_lt hklt)
      (fun j hj => hctx j (Nat.le_of_lt_succ hj))
      (fun j hj => by
        rcases Nat.lt_succ_iff_lt_or_eq.mp hj with h | h
        · exact ⟨_, by rw [attemptStep_eq c env j hc, if_pos (hret j h)]⟩
        · exact ⟨_, by rw [h, attemptStep_eq c env k hc, if_pos hr]⟩)
    rw [hrun]
    have hmono := makeRequestLoop_doCalls_step c env ctx
      (c.RetryPolicy.MaxRetries - (k + 1)) (k + 1) (traceUpTo c (k + 1)) hc hctx1
    have htr : (traceUpTo c (k + 1)).doCalls = k + 1 := by simp [traceUpTo, hc]
    omega

/-- C4 witness: a single 404 is terminal — one send, then decoding. -/
theorem claim4_witness :
    (makeRequest keyClient env404 Context.background).2.doCalls = 0 + 1 ∧
    (makeRequest keyClient env404 Context.background).1 =
      decodeTerminal resp404 "\x7b\"success\":false\x7d" := by
  have h := (claim4_retry_classification keyClient env404 Context.background 0
    (by decide) (Nat.zero_le _) (fun j _ => rfl)
    (fun j hj => absurd hj (Nat.not_lt_zero j))).1 (by decide)
  exact ⟨h.1, h.2 resp404 _ rfl rfl⟩

/-- C5 counterexample: a persistent 503 with a readable body exhausts the loop
with the internal classification error `respErr` equal to nil
(`errors.Wrap(nil, …) == nil`), yet `makeRequest` returns an error — the
post-loop synthesized "HTTP status 503: service failure" — so the returned
value is not "the last transport/classification error verbatim": no such
error exists for this run. -/
theorem claim5_counterexample :
    (makeRequest zeroRetryClient env503 Context.background).1 =
      .error (.serviceFailure 503) ∧
    loopClassifyErr (env503.attempts 0) = none :=
  ⟨rfl, rfl⟩

/-- C5 (amended): when the loop exhausts all `MaxRetries + 1` attempts in a
retryable state, `makeRequest` returns exactly the exhaustion value of the
final attempt, with no synthetic "retries exhausted" wrapper: for a final
transport-level failure that is the last classification error verbatim, while
a final retryable HTTP status whose body was read successfully falls through
to the post-loop response decoding; an error is surfaced in every case. -/
theorem claim5_exhaustion_result (c : ClientParams) (env : Env) (ctx : Context)
    (hc : hasCredentials c)
    (hctx : ∀ j, j ≤ c.RetryPolicy.MaxRetries → ctx.cancelled j = false)
    (hret : ∀ j, j ≤ c.RetryPolicy.MaxRetries → retryableOutcome (env.attempts j)) :
    (makeRequest c env ctx).1 = exhaustResult (env.attempts c.RetryPolicy.MaxRetries) ∧
    (∀ m, env.attempts c.RetryPolicy.MaxRetries = .failure m →
      (makeRequest c env ctx).1 = .error (.requestFailed m)) ∧
    ∃ e, (makeRequest c env ctx).1 = .error e := by
  obtain ⟨e, he⟩ := exhaustResult_isError _ (hret _ (Nat.le_refl _))
  have hstep : attemptStep c env c.RetryPolicy.MaxRetries =
      .retry (exhaustResult (env.attempts c.RetryPolicy.MaxRetries)) := by
    rw [attemptStep_eq c env _ hc, if_pos (hret _ (Nat.le_refl _))]
  have hrun := makeRequest_exhaust c env ctx hctx
    (fun j hj => ⟨_, by rw [attemptStep_eq c env j hc, if_pos (hret j (Nat.le_of_lt hj))]⟩)
    _ hstep
  rw [hrun]
  refine ⟨rfl, ?_, ⟨e, he⟩⟩
  intro m hm
  show exhaustResult (env.attempts c.RetryPolicy.MaxRetries) = _
  rw [hm]
  rfl

/-- C5 witness: persistent connection failures surface the wrapped transport
error of the last attempt verbatim. -/
theorem claim5_witness :
    (makeRequest keyClient envFail Context.background).1 =
      .error (.requestFailed "connection refused") :=
  ((claim5_exhaustion_result keyClient envFail Context.background
      (by decide) (fun j _ => rfl) (fun j _ => trivial)).2.1) "connection refused" rfl

/-- C6: a response with `400 ≤ status ≤ 500` whose request path does not end in
the expression-validation suffix has its body parsed as an envelope, and on
success the call returns an `APIRequestError` carrying that status, the
envelope's errors, and the `cf-ray` header (empty when absent); a terminal such
status (≠ 429, < 500) is never retried: the loop stops after its attempt. -/
theorem claim6_api_error_construction :
    (∀ (resp : HTTPResponse) (b : String) (envl : Response),
      400 ≤ resp.statusCode → resp.statusCode ≤ 500 →
      resp.urlPath.endsWith "/filters/validate-expr" = false →
      unmarshalResponse b = .ok envl →
      decodeTerminal resp b =
        .error (.api resp.statusCode envl.Errors (headerGet resp.headers "cf-ray"))) ∧
    (∀ (c : ClientParams) (env : Env) (ctx : Context) (resp : HTTPResponse)
        (b : String) (envl : Response),
      hasCredentials c → ctx.cancelled 0 = false →
      env.attempts 0 = .success resp →
      400 ≤ resp.statusCode → resp.statusCode < 500 → resp.statusCode ≠ 429 →
      resp.urlPath.endsWith "/filters/validate-expr" = false →
      resp.body = .ok b →
      unmarshalResponse b = .ok envl →
      (makeRequest c env ctx).1 =
        .error (.api resp.statusCode envl.Errors (headerGet resp.headers "cf-ray")) ∧
      (makeRequest c env ctx).2.doCalls = 1) := by
  have hdecode : ∀ (resp : HTTPResponse) (b : String) (envl : Response),
      400 ≤ resp.statusCode → resp.statusCode ≤ 500 →
      resp.urlPath.endsWith "/filters/validate-expr" = false →
      unmarshalResponse b = .ok envl →
      decodeTerminal resp b =
        .error (.api resp.statusCode envl.Errors (headerGet resp.headers "cf-ray")) := by
    intro resp b envl h400 h500 hsuffix hparse
    unfold decodeTerminal
    rw [if_pos h400, if_neg (by simp [hsuffix]), if_neg (by omega), hparse]
  refine ⟨hdecode, ?_⟩
  intro c env ctx resp b envl hc hctx0 hatt h400 h500 h429 hsuffix hbody hparse
  have hterm : ¬ retryableOutcome (env.attempts 0) := by
    rw [hatt]
    intro h
    simp only [retryableOutcome] at h
    rcases h with h | h
    · exact h429 h
    · omega
  have hstep : attemptStep c env 0 = .done (exhaustResult (env.attempts 0)) := by
    rw [attemptStep_eq c env 0 hc, if_neg hterm]
  have hrun := makeRequest_done c env ctx 0 (Nat.zero_le _)
    (fun j hj => by rw [Nat.le_zero.mp hj]; exact hctx0)
    (fun j hj => absurd hj (Nat.not_lt_zero j)) _ hstep
  rw [hrun]
  constructor
  · show exhaustResult (env.attempts 0) = _
    rw [hatt]
    show exhaustResult (.success resp) = _
    simp only [exhaustResult, hbody]
    exact hdecode resp b envl h400 (Nat.le_of_lt h500) hsuffix hparse
  · simp [traceUpTo, hc]

/-- C6 witness: the spec's 403 / code-9109 example produces the structured
error with its ray id and no retry. -/
theorem claim6_witness :
    (makeRequest keyClient env403 Context.background).1 =
      .error (.api 403 [⟨9109, "Invalid access"⟩] "ray-1234") ∧
    (makeRequest keyClient env403 Context.background).2.doCalls = 1 := by
  have h := claim6_api_error_construction.2 keyClient env403 Context.background
    resp403 body403 ⟨false, [⟨9109, "Invalid access"⟩], []⟩
    (by decide) rfl rfl (by decide) (by decide) (by decide) (by decide) rfl rfl
  exact h

/-- C7 counterexample: two terminal error responses that differ only in their
status (404 vs 400), both with the same malformed body, yield the *same*
returned error — the wrapped parse failure with no status information — so the
original HTTP status is not recoverable from the returned error. -/
theorem claim7_counterexample :
    (makeRequest keyClient env404bad Context.background).1 =
      .error (.unmarshalErrorBody "invalid character in literal") ∧
    (makeRequest keyClient env400bad Context.background).1 =
      .error (.unmarshalErrorBody "invalid character in literal") ∧
    (makeRequest keyClient env404bad Context.background).1 =
      (makeRequest keyClient env400bad Context.background).1 :=
  ⟨rfl, rfl, rfl⟩

/-- C7 (amended): a terminal error response (`400 ≤ status < 500`, ≠ 429, not
the expression-validation endpoint) whose body fails to parse as an envelope
yields a terminal decode error wrapping exactly the underlying parse failure;
the error carries no status information (it depends only on the parse
failure), and the response is not retried. -/
theorem claim7_decode_error_wraps_parse_failure (c : ClientParams) (env : Env)
    (ctx : Context) (resp : HTTPResponse) (b m : String)
    (hc : hasCredentials c) (hctx0 : ctx.cancelled 0 = false)
    (hatt : env.attempts 0 = .success resp)
    (h400 : 400 ≤ resp.statusCode) (h500 : resp.statusCode < 500)
    (h429 : resp.statusCode ≠ 429)
    (hsuffix : resp.urlPath.endsWith "/filters/validate-expr" = false)
    (hbody : resp.body = .ok b)
    (hparse : unmarshalResponse b = .error m) :
    (makeRequest c env ctx).1 = .error (.unmarshalErrorBody m) ∧
    (makeRequest c env ctx).2.doCalls = 1 := by
  have hterm : ¬ retryableOutcome (env.attempts 0) := by
    rw [hatt]
    intro h
    simp only [retryableOutcome] at h
    rcases h with h | h
    · exact h429 h
    · omega
  have hstep : attemptStep c env 0 = .done (exhaustResult (env.attempts 0)) := by
    rw [attemptStep_eq c env 0 hc, if_neg hterm]
  have hrun := makeRequest_done c env ctx 0 (Nat.zero_le _)
    (fun j hj => by rw [Nat.le_zero.mp hj]; exact hctx0)
    (fun j hj => absurd hj (Nat.not_lt_zero j)) _ hstep
  rw [hrun]
  constructor
  · show exhaustResult (env.attempts 0) = _
    rw [hatt]
    show exhaustResult (.success resp) = _
    simp only [exhaustResult, hbody]
    unfold decodeTerminal
    rw [if_pos h400, if_neg (by simp [hsuffix]), if_neg (by omega), hparse]
  · simp [traceUpTo, hc]

/-- C7 witness: a 404 with body "not json" yields the wrapped parse failure. -/
theorem claim7_witness :
    (makeRequest zeroRetryClient env404bad Context.background).1 =
      .error (.unmarshalErrorBody "invalid character in literal") ∧
    (makeRequest zeroRetryClient env404bad Context.background).2.doCalls = 1 :=
  claim7_decode_error_wraps_parse_failure zeroRetryClient env404bad Context.background
    ⟨404, [], "/zones/abc", .ok "not json"⟩ "not json" "invalid character in literal"
    (by decide) rfl rfl (by decide) (by decide) (by decide) (by decide) rfl rfl

/-- The credential headers produced by `request` for a client with no default
headers and no extra per-call headers, for each of the four possible
credential configurations. -/
lemma requestHeaders_credentials (c : ClientParams) (hH : c.Headers = []) :
    headerGet (requestHeaders c []) "Authorization" =
      (if c.Token ≠ "" then "Bearer " ++ c.Token else "") ∧
    headerGet (requestHeaders c []) "X-Auth-Key" = (if c.Key ≠ "" then c.Key else "") ∧
    headerGet (requestHeaders c []) "X-Auth-Email" = (if c.Key ≠ "" then c.Email else "") ∧
    headerGet (requestHeaders c []) "X-Auth-User-Service-Key" =
      (if c.UserServiceKey ≠ "" then c.UserServiceKey else "") := by
  by_cases hK : c.Key ≠ "" <;> by_cases hU : c.UserServiceKey ≠ "" <;>
    by_cases hT : c.Token ≠ "" <;> by_cases hA : c.UserAgent ≠ "" <;>
      simp only [requestHeaders, hH, ne_eq, hK, hU, hT, hA, if_true, if_false,
        not_false_eq_true, not_true_eq_false, ite_true, ite_false] <;>
      exact ⟨rfl, rfl, rfl, rfl⟩

/-- C8: for clients built by `New`, credentials are applied with precedence:
`New` rejects a key and a token together, so a client with a non-empty token
carries the credential only in `Authorization: Bearer <token>` (the
`X-Auth-Key`/`X-Auth-Email` headers stay unset); with no token but a key, the
two key/email headers are set and `Authorization` stays unset; the
`X-Auth-User-Service-Key` header is set independently of either. -/
theorem claim8_credential_precedence (config c : ClientParams)
    (hNew : New config = .ok c) :
    (c.Token ≠ "" →
      headerGet (requestHeaders c []) "Authorization" = "Bearer " ++ c.Token ∧
      headerGet (requestHeaders c []) "X-Auth-Key" = "" ∧
      headerGet (requestHeaders c []) "X-Auth-Email" = "") ∧
    (c.Token = "" → c.Key ≠ "" →
      headerGet (requestHeaders c []) "X-Auth-Key" = c.Key ∧
      headerGet (requestHeaders c []) "X-Auth-Email" = c.Email ∧
      headerGet (requestHeaders c []) "Authorization" = "") ∧
    (c.UserServiceKey ≠ "" →
      headerGet (requestHeaders c []) "X-Auth-User-Service-Key" = c.UserServiceKey) := by
  unfold New at hNew
  by_cases hg : config.Key ≠ "" ∧ config.Token ≠ ""
  · rw [if_pos hg] at hNew
    cases hNew
  · rw [if_neg hg] at hNew
    injection hNew with h
    have hTokEq : c.Token = (if config.Token ≠ "" then config.Token else "") := by rw [← h]
    have hKeyEq : c.Key = (if config.Key ≠ "" then config.Key else "") := by rw [← h]
    have hHeadEq : c.Headers = [] := by rw [← h]
    have hdrs := requestHeaders_credentials c hHeadEq
    refine ⟨?_, ?_, ?_⟩
    · intro hTok
      have hcT : config.Token ≠ "" := by
        intro h0
        apply hTok
        rw [hTokEq, if_neg (by simp [h0])]
      have hcKn : ¬ config.Key ≠ "" := fun hk => hg ⟨hk, hcT⟩
      have hKey0 : c.Key = "" := by rw [hKeyEq, if_neg hcKn]
      exact ⟨by rw [hdrs.1, if_pos hTok],
             by rw [hdrs.2.1, if_neg (by simp [hKey0])],
             by rw [hdrs.2.2.1, if_neg (by simp [hKey0])]⟩
    · intro hTok0 hKeyNe
      exact ⟨by rw [hdrs.2.1, if_pos hKeyNe],
             by rw [hdrs.2.2.1, if_pos hKeyNe],
             by rw [hdrs.1, if_neg (by simp [hTok0])]⟩
    · intro hUSK
      rw [hdrs.2.2.2, if_pos hUSK]

/-- A config carrying a token and a service key (no key/email). -/
def tokenConfig : ClientParams := ⟨"", "", "svc-key", "v1tok", "", [], ⟨0, 0, 0⟩⟩

/-- The client `New` builds from `tokenConfig`. -/
def newTokenClient : ClientParams :=
  ⟨"", "", "svc-key", "v1tok", "cloudflare-go/dev", [], ⟨3, 1000000000, 30000000000⟩⟩

/-- C8 witness: the `New`-built token client sends only `Authorization` as its
primary credential, with the service key coexisting. -/
theorem claim8_witness :
    headerGet (requestHeaders newTokenClient []) "Authorization" = "Bearer " ++ "v1tok" ∧
    headerGet (requestHeaders newTokenClient []) "X-Auth-Key" = "" ∧
    headerGet (requestHeaders newTokenClient []) "X-Auth-Email" = "" ∧
    headerGet (requestHeaders newTokenClient []) "X-Auth-User-Service-Key" = "svc-key" := by
  have h := claim8_credential_precedence tokenConfig newTokenClient rfl
  exact ⟨(h.1 (by decide)).1, (h.1 (by decide)).2.1, (h.1 (by decide)).2.2,
         h.2.2 (by decide)⟩

/-- C9: a terminal response with HTTP status < 400 makes `makeRequest` return
the response body bytes unchanged with no error, after exactly one send beyond
the retried prefix. -/
theorem claim9_success_passthrough (c : ClientParams) (env : Env) (ctx : Context)
    (k : Nat) (resp : HTTPResponse) (b : String)
    (hc : hasCredentials c) (hk : k ≤ c.RetryPolicy.MaxRetries)
    (hctx : ∀ j, j ≤ k → ctx.cancelled j = false)
    (hret : ∀ j, j < k → retryableOutcome (env.attempts j))
    (hatt : env.attempts k = .success resp)
    (hstatus : resp.statusCode < 400)
    (hbody : resp.body = .ok b) :
    (makeRequest c env ctx).1 = .ok b ∧
    (makeRequest c env ctx).2.doCalls = k + 1 := by
  have hterm : ¬ retryableOutcome (env.attempts k) := by
    rw [hatt]
    intro h
    simp only [retryableOutcome] at h
    rcases h with h | h <;> omega
  have hstep : attemptStep c env k = .done (exhaustResult (env.attempts k)) := by
    rw [attemptStep_eq c env k hc, if_neg hterm]
  have hrun := makeRequest_done c env ctx k hk hctx
    (fun j hj => ⟨_, by rw [attemptStep_eq c env j hc, if_pos (hret j hj)]⟩) _ hstep
  rw [hrun]
  constructor
  · show exhaustResult (env.attempts k) = .ok b
    rw [hatt]
    show exhaustResult (.success resp) = .ok b
    simp only [exhaustResult, hbody]
    unfold decodeTerminal
    rw [if_neg (by omega)]
  · simp [traceUpTo, hc]

/-- The spec's 200-success envelope body. -/
def body200 : String := "\x7b\"success\":true,\"result\":\x7b\"id\":\"z1\"\x7d\x7d"

/-- A transport answering 200 with `body200`. -/
def env200 : Env := ⟨fun _ => .success ⟨200, [], "/zones", .ok body200⟩⟩

/-- C9 witness: a 200 with `{"success":true,"result":{"id":"z1"}}` yields
exactly those bytes, no error, one send. -/
theorem claim9_witness :
    (makeRequest keyClient env200 Context.background).1 = .ok body200 ∧
    (makeRequest keyClient env200 Context.background).2.doCalls = 0 + 1 :=
  claim9_success_passthrough keyClient env200 Context.background 0
    ⟨200, [], "/zones", .ok body200⟩ body200
    (by decide) (Nat.zero_le _) (fun j _ => rfl)
    (fun j hj => absurd hj (Nat.not_lt_zero j)) rfl (by decide) rfl

/-- C10: whenever the underlying `Call` fails (any `makeRequest` error — the
methods pass `context.Background()` to `Call`, not the caller's context, which
is why the hypothesis is about the background-context run), `ZonesService.Get`,
`List` and `Delete` discard that error, attempt to unmarshal the nil result
bytes, and return the "failed to unmarshal zone JSON data" error wrapping
"unexpected end of JSON input" — never the original `Call` error; the result
is the same for every caller-supplied context. -/
theorem claim10_zones_swallow_call_errors (c : ClientParams) (env : Env)
    (ctx1 ctx2 ctx3 : Context) (zoneID : String) (params : ZoneParams) (e : ReqError)
    (hvalid : isValidZoneIdentifier zoneID = true)
    (herr : (makeRequest c env Context.background).1 = .error e) :
    ZonesService.Get c env ctx1 zoneID =
      .error (.unmarshalZoneJSON "unexpected end of JSON input") ∧
    ZonesService.List c env ctx2 params =
      .error (.unmarshalZoneJSON "unexpected end of JSON input") ∧
    ZonesService.Delete c env ctx3 zoneID =
      .error (.unmarshalZoneJSON "unexpected end of JSON input") := by
  have hcall : ∀ uri, callBytes c env Context.background uri = "" := by
    intro uri
    simp only [callBytes]
    rw [herr]
  refine ⟨?_, ?_, ?_⟩
  · simp only [ZonesService.Get]
    rw [if_neg (by simp [hvalid]), hcall]
    rfl
  · simp only [ZonesService.List]
    rw [hcall]
    rfl
  · simp only [ZonesService.Delete]
    rw [if_neg (by simp [hvalid]), hcall]
    rfl

/-- C10 witness: a credential-less client (whose `Call` fails with the
"no user credentials provided" error) makes all three zone methods return the
unmarshal error, for the valid test zone identifier. -/
theorem claim10_witness :
    ZonesService.Get noCredClient envFail Context.background
      "d56084adb405e0b7e32c52321bf07be6" =
      .error (.unmarshalZoneJSON "unexpected end of JSON input") ∧
    ZonesService.List noCredClient envFail Context.background
      ⟨"", "", "", "", "", ""⟩ =
      .error (.unmarshalZoneJSON "unexpected end of JSON input") ∧
    ZonesService.Delete noCredClient envFail Context.background
      "d56084adb405e0b7e32c52321bf07be6" =
      .error (.unmarshalZoneJSON "unexpected end of JSON input") :=
  claim10_zones_swallow_call_errors noCredClient envFail
    Context.background Context.background Context.background
    "d56084adb405e0b7e32c52321bf07be6" ⟨"", "", "", "", "", ""⟩
    .noCredentials (by decide) rfl

end Cloudflare
